import Mathlib

/-!
Verification development for the `arti-rpc-client-core` client library.

The repository ships the public C header `arti-rpc-client-core.h`
(constants, function declarations and their documented contracts).
The implementation behind the header is not part of the repository, so the
behavioural definitions below are shallow models built from the
specification's description of the dispatcher, handle registry,
connect-point evaluator and error conventions.  The integer constants are
taken verbatim from the header.
-/

/-! ## Status codes, response types and builder entry types

Taken directly from the `#define` lines of `arti-rpc-client-core.h`. -/

def ARTI_RPC_BUILDER_ENTRY_LITERAL_CONNECT_POINT : Nat := 1

def ARTI_RPC_BUILDER_ENTRY_EXPANDABLE_PATH : Nat := 2

def ARTI_RPC_BUILDER_ENTRY_LITERAL_PATH : Nat := 3

def ARTI_RPC_RESPONSE_TYPE_RESULT : Nat := 1

def ARTI_RPC_RESPONSE_TYPE_UPDATE : Nat := 2

def ARTI_RPC_RESPONSE_TYPE_ERROR : Nat := 3

def ARTI_RPC_STATUS_SUCCESS : Nat := 0

def ARTI_RPC_STATUS_INVALID_INPUT : Nat := 1

def ARTI_RPC_STATUS_NOT_SUPPORTED : Nat := 2

def ARTI_RPC_STATUS_CONNECT_IO : Nat := 3

def ARTI_RPC_STATUS_BAD_AUTH : Nat := 4

def ARTI_RPC_STATUS_PEER_PROTOCOL_VIOLATION : Nat := 5

def ARTI_RPC_STATUS_SHUTDOWN : Nat := 6

def ARTI_RPC_STATUS_INTERNAL : Nat := 7

def ARTI_RPC_STATUS_REQUEST_FAILED : Nat := 8

def ARTI_RPC_STATUS_REQUEST_COMPLETED : Nat := 9

def ARTI_RPC_STATUS_PROXY_IO : Nat := 10

def ARTI_RPC_STATUS_PROXY_STREAM_FAILED : Nat := 11

def ARTI_RPC_STATUS_NOT_AUTHENTICATED : Nat := 12

def ARTI_RPC_STATUS_ALL_CONNECT_ATTEMPTS_FAILED : Nat := 13

def ARTI_RPC_STATUS_CONNECT_POINT_NOT_USABLE : Nat := 14

def ARTI_RPC_STATUS_BAD_CONNECT_POINT_PATH : Nat := 15

/-! ## Error objects and accessor functions

`ArtiRpcError` is opaque in the header; its observable fields are those
exposed by the `arti_rpc_err_*` accessors: status code, human-readable
message, optional OS error code (0 when inapplicable) and optional raw
JSON error response.  A C pointer argument that may be NULL is modelled
as an `Option`; `none` is NULL. -/

structure ErrObj where
  status : Nat
  message : String
  osCode : Int
  response : Option String
deriving DecidableEq

/-- Modelled from the spec: `arti_rpc_err_status` returns the status code
of the error, and `ARTI_RPC_STATUS_INVALID_INPUT` when `err` is NULL. -/
def arti_rpc_err_status : Option ErrObj → Nat
  | none => ARTI_RPC_STATUS_INVALID_INPUT
  | some e => e.status

/-- Modelled from the spec: `arti_rpc_err_os_error_code` returns the OS
error code underlying the error, and 0 when `err` is NULL or when the
error was not caused by an OS call failure. -/
def arti_rpc_err_os_error_code : Option ErrObj → Int
  | none => 0
  | some e => e.osCode

/-- Modelled from the spec: `arti_rpc_err_message` returns the
human-readable message, NULL when `err` is NULL. -/
def arti_rpc_err_message : Option ErrObj → Option String
  | none => none
  | some e => some e.message

/-- Modelled from the spec: `arti_rpc_err_response` returns the raw JSON
error response when the error represents an RPC error reply, NULL when
`err` is NULL or carries no response. -/
def arti_rpc_err_response : Option ErrObj → Option String
  | none => none
  | some e => e.response

/-- Modelled from the spec: `arti_rpc_err_clone` returns a copy of the
error, NULL when the input is NULL. -/
def arti_rpc_err_clone : Option ErrObj → Option ErrObj
  | none => none
  | some e => some e

/-- Modelled from the spec: every `arti_rpc_*_free` function treats a NULL
argument as a no-op.  The allocation state visible to the caller is
modelled as the list of live allocation identifiers; freeing a non-NULL
pointer removes it, freeing NULL changes nothing. -/
def arti_rpc_object_free (heap : List Nat) : Option Nat → List Nat
  | none => heap
  | some p => heap.erase p

/-- Modelled from the spec: `arti_rpc_status_to_str` maps every status
value, including unrecognized ones, to a non-NULL string. -/
def arti_rpc_status_to_str (status : Nat) : Option String :=
  if status = ARTI_RPC_STATUS_SUCCESS then some "Operation was successful"
  else if status = ARTI_RPC_STATUS_INVALID_INPUT then some "Invalid input"
  else if status = ARTI_RPC_STATUS_NOT_SUPPORTED then some "Not supported"
  else if status = ARTI_RPC_STATUS_CONNECT_IO then some "IO error while connecting to Arti"
  else if status = ARTI_RPC_STATUS_BAD_AUTH then some "Authentication rejected"
  else if status = ARTI_RPC_STATUS_PEER_PROTOCOL_VIOLATION then some "Peer protocol violation"
  else if status = ARTI_RPC_STATUS_SHUTDOWN then some "Peer has shut down"
  else if status = ARTI_RPC_STATUS_INTERNAL then some "Internal error"
  else if status = ARTI_RPC_STATUS_REQUEST_FAILED then some "Request failed"
  else if status = ARTI_RPC_STATUS_REQUEST_COMPLETED then some "Request already completed"
  else if status = ARTI_RPC_STATUS_PROXY_IO then some "IO error while opening proxy stream"
  else if status = ARTI_RPC_STATUS_PROXY_STREAM_FAILED then some "Proxy stream failed"
  else if status = ARTI_RPC_STATUS_NOT_AUTHENTICATED then some "Not authenticated"
  else if status = ARTI_RPC_STATUS_ALL_CONNECT_ATTEMPTS_FAILED then some "All connect attempts failed"
  else if status = ARTI_RPC_STATUS_CONNECT_POINT_NOT_USABLE then some "Connect point not usable"
  else if status = ARTI_RPC_STATUS_BAD_CONNECT_POINT_PATH then some "Bad connect point path"
  else some "(unrecognized error status)"

/-! ## Out-parameter conventions of fallible functions

Modelled from the spec/header conventions: a fallible function returns a
status; on success the main out-parameter carries the newly allocated
result and `error_out` is set to NULL; on failure the main out-parameter
is set to NULL and `error_out` (when the caller passed one) is set to a
newly allocated error object.  For `arti_rpc_conn_open_stream` the socket
out-parameter is set to -1 on failure. -/

structure ApiResult (α : Type) where
  status : Nat
  out : Option α
  errorOut : Option ErrObj
deriving DecidableEq

/-- Modelled from the spec: the common epilogue of every fallible
function.  `errProvided` records whether the caller passed a non-NULL
`error_out`; when the caller passed NULL no error object is allocated. -/
def finishCall {α : Type} (errProvided : Bool) : Except ErrObj α → ApiResult α
  | Except.ok a => ⟨ARTI_RPC_STATUS_SUCCESS, some a, none⟩
  | Except.error e => ⟨e.status, none, if errProvided then some e else none⟩

structure StreamResult where
  status : Nat
  socket : Int
  streamId : Option String
  errorOut : Option ErrObj
deriving DecidableEq

/-- Modelled from the spec: the epilogue of `arti_rpc_conn_open_stream`.
On success the OS socket and the optional stream object id are returned;
on failure the socket out-parameter is set to -1 and the stream id to
NULL. -/
def finishOpenStream (errProvided : Bool) : Except ErrObj (Int × Option String) → StreamResult
  | Except.ok sv => ⟨ARTI_RPC_STATUS_SUCCESS, sv.1, sv.2, none⟩
  | Except.error e => ⟨e.status, -1, none, if errProvided then some e else none⟩

/-! ## The per-request handle state machine

Modelled from the spec, section "Dispatcher & Handle Registry": a registry
entry is `pending` or `terminated(Result|Error|Cancelled|ConnectionLost)`;
the reader enqueues incoming peer messages for the entry (`update` keeps
it pending; `result`/`error` terminate it; after termination no further
messages may be enqueued); a cancel acknowledgement terminates the entry
with a terminal error indicating cancellation; connection loss terminates
it without a terminal message; a waiter consumes one queued message per
wait, and once the queue is empty a wait reports `REQUEST_COMPLETED` on a
normally-terminated entry and `SHUTDOWN` on a lost connection. -/

inductive PeerMsg
  | update (body : String)
  | result (body : String)
  | error (body : String)
deriving DecidableEq

def PeerMsg.isTerminal : PeerMsg → Bool
  | .update _ => false
  | .result _ => true
  | .error _ => true

def PeerMsg.body : PeerMsg → String
  | .update b => b
  | .result b => b
  | .error b => b

/-- The response-type constant delivered alongside a message by
`arti_rpc_handle_wait`. -/
def responseTypeOf : PeerMsg → Nat
  | .update _ => ARTI_RPC_RESPONSE_TYPE_UPDATE
  | .result _ => ARTI_RPC_RESPONSE_TYPE_RESULT
  | .error _ => ARTI_RPC_RESPONSE_TYPE_ERROR

inductive TermKind
  | result
  | error
  | cancelled
  | connectionLost
deriving DecidableEq

inductive EntryState
  | pending
  | terminated (k : TermKind)
deriving DecidableEq

/-- One registry entry: its state, the queue of received but not yet
consumed messages, and (as observable history) the messages already
delivered to waiters, in delivery order. -/
structure Entry where
  state : EntryState
  queue : List PeerMsg
  delivered : List PeerMsg
deriving DecidableEq

def initEntry : Entry := ⟨EntryState.pending, [], []⟩

/-- All messages the entry has received, in order. -/
def Entry.msgs (e : Entry) : List PeerMsg := e.delivered ++ e.queue

/-- Whether a terminal message has already been consumed by some waiter. -/
def Entry.terminalDelivered (e : Entry) : Bool :=
  e.delivered.any PeerMsg.isTerminal

/-- Events that can happen to one entry: the reader receives a peer
message for its id, a cancel acknowledgement arrives, the connection is
lost, or a waiter consumes one message. -/
inductive HEv
  | recv (m : PeerMsg)
  | cancelAck
  | connLost
  | wait
deriving DecidableEq

/-- Modelled from the spec: the per-entry transition function.  A message
received for an already-terminated entry is a peer protocol violation and
is not enqueued; a cancel acknowledgement of a pending entry terminates
it and enqueues a terminal error indicating cancellation; connection loss
terminates a pending entry without enqueuing anything; a wait consumes
the head of the queue. -/
def entryStep (e : Entry) : HEv → Entry
  | HEv.recv m =>
    match e.state with
    | EntryState.pending =>
      match m with
      | PeerMsg.update _ => { e with queue := e.queue ++ [m] }
      | PeerMsg.result _ =>
        { e with state := EntryState.terminated TermKind.result, queue := e.queue ++ [m] }
      | PeerMsg.error _ =>
        { e with state := EntryState.terminated TermKind.error, queue := e.queue ++ [m] }
    | EntryState.terminated _ => e
  | HEv.cancelAck =>
    match e.state with
    | EntryState.pending =>
      { e with state := EntryState.terminated TermKind.cancelled,
               queue := e.queue ++ [PeerMsg.error "request cancelled"] }
    | EntryState.terminated _ => e
  | HEv.connLost =>
    match e.state with
    | EntryState.pending => { e with state := EntryState.terminated TermKind.connectionLost }
    | EntryState.terminated _ => e
  | HEv.wait =>
    match e.queue with
    | m :: rest => { e with queue := rest, delivered := e.delivered ++ [m] }
    | [] => e

/-- Run an entry from its initial state through a list of events. -/
def runEntry (evs : List HEv) : Entry := evs.foldl entryStep initEntry

/-- What one `arti_rpc_handle_wait` call observes on an entry: the next
queued message (status SUCCESS), `REQUEST_COMPLETED` once a
normally-terminated entry's queue is drained, `SHUTDOWN` once a
lost-connection entry's queue is drained, or blocking when the entry is
still pending with nothing queued. -/
inductive WaitRes
  | delivered (body : String) (rtype : Nat)
  | completed
  | shutdown
  | blocked
deriving DecidableEq

def waitRes (e : Entry) : WaitRes :=
  match e.queue with
  | m :: _ => WaitRes.delivered m.body (responseTypeOf m)
  | [] =>
    match e.state with
    | EntryState.pending => WaitRes.blocked
    | EntryState.terminated TermKind.connectionLost => WaitRes.shutdown
    | EntryState.terminated _ => WaitRes.completed

/-- The status code returned by `arti_rpc_handle_wait` for each outcome
(`none` when the wait is still blocked and has not returned). -/
def waitStatus : WaitRes → Option Nat
  | WaitRes.delivered _ _ => some ARTI_RPC_STATUS_SUCCESS
  | WaitRes.completed => some ARTI_RPC_STATUS_REQUEST_COMPLETED
  | WaitRes.shutdown => some ARTI_RPC_STATUS_SHUTDOWN
  | WaitRes.blocked => none

/-- `true` when every message in the list is a non-terminal update. -/
def allUpdates (l : List PeerMsg) : Bool := l.all (fun m => !m.isTerminal)

/-- `true` when the list is nonempty and its last message is terminal. -/
def lastIsTerminal (l : List PeerMsg) : Bool :=
  match l.getLast? with
  | some m => m.isTerminal
  | none => false

/-- Modelled from the spec: `arti_rpc_conn_cancel_handle`.  Cancelling an
already-terminated entry reports `REQUEST_COMPLETED` without touching it;
cancelling a pending entry sends the out-of-band cancel, and on the
peer's acknowledgement the entry terminates as cancelled and the call
returns `SUCCESS`. -/
def arti_rpc_conn_cancel_handle (e : Entry) : Nat × Entry :=
  match e.state with
  | EntryState.terminated _ => (ARTI_RPC_STATUS_REQUEST_COMPLETED, e)
  | EntryState.pending => (ARTI_RPC_STATUS_SUCCESS, entryStep e HEv.cancelAck)

/-- Modelled from the spec: `arti_rpc_conn_execute` submits a request and
waits until the terminal message, demanding a successful result.  Given
the sequence of peer replies for the request, updates are consumed, a
`result` yields `SUCCESS` with the response string, and an `error` reply
is surfaced as `REQUEST_FAILED` carrying the error reply in the error
object's response field. -/
def executeReplies : List PeerMsg → Nat × Option String
  | [] => (ARTI_RPC_STATUS_SHUTDOWN, none)
  | PeerMsg.update _ :: rest => executeReplies rest
  | PeerMsg.result b :: _ => (ARTI_RPC_STATUS_SUCCESS, some b)
  | PeerMsg.error _ :: _ => (ARTI_RPC_STATUS_REQUEST_FAILED, none)

/-! ## UTF-8 validation

The header's interface conventions state that all input strings must be
valid UTF-8 and that the library checks this.  Input strings are modelled
as byte lists; `utf8Valid` is the standard RFC 3629 well-formedness check
(shortest form, no surrogates, maximum U+10FFFF). -/

def isCont (b : Nat) : Bool := 0x80 ≤ b && b ≤ 0xBF

def utf8Valid : List Nat → Bool
  | [] => true
  | b :: rest =>
    if b ≤ 0x7F then
      utf8Valid rest
    else
      match rest with
      | [] => false
      | c1 :: r1 =>
        if 0xC2 ≤ b && b ≤ 0xDF then
          isCont c1 && utf8Valid r1
        else
          match r1 with
          | [] => false
          | c2 :: r2 =>
            if b = 0xE0 then
              (0xA0 ≤ c1 && c1 ≤ 0xBF) && isCont c2 && utf8Valid r2
            else if (0xE1 ≤ b && b ≤ 0xEC) || b = 0xEE || b = 0xEF then
              isCont c1 && isCont c2 && utf8Valid r2
            else if b = 0xED then
              (0x80 ≤ c1 && c1 ≤ 0x9F) && isCont c2 && utf8Valid r2
            else
              match r2 with
              | [] => false
              | c3 :: r3 =>
                if b = 0xF0 then
                  (0x90 ≤ c1 && c1 ≤ 0xBF) && isCont c2 && isCont c3 && utf8Valid r3
                else if 0xF1 ≤ b && b ≤ 0xF3 then
                  isCont c1 && isCont c2 && isCont c3 && utf8Valid r3
                else if b = 0xF4 then
                  (0x80 ≤ c1 && c1 ≤ 0x8F) && isCont c2 && isCont c3 && utf8Valid r3
                else
                  false

/-! ## The connection and its request dispatcher

Modelled from the spec: a connection owns the negotiated session id, the
registry of live request ids, the monotone counter used to generate fresh
ids, and (as observable history) the sequence of framed messages written
to the wire.  Request ids are JSON strings or integers; ids generated by
the dispatcher carry a connection-unique salt, so they can never collide
with a caller-supplied id — modelled by a dedicated constructor. -/

inductive ReqId
  | genId (n : Nat)
  | callerStr (s : String)
  | callerNum (n : Int)
deriving DecidableEq

def ReqId.isGen : ReqId → Bool
  | .genId _ => true
  | _ => false

/-- A caller-supplied `id` field: a JSON string or integer.  Generated
ids carry the connection-unique salt, so a caller-supplied id is never
equal to a generated one. -/
inductive CallerId
  | str (s : String)
  | num (n : Int)
deriving DecidableEq

def CallerId.toReqId : CallerId → ReqId
  | .str s => ReqId.callerStr s
  | .num n => ReqId.callerNum n

structure ConnState where
  sessionId : String
  liveIds : List ReqId
  nextId : Nat
  wire : List (ReqId × List Nat)
  closed : Bool
deriving DecidableEq

/-- The request ids appearing on the wire, in the order sent. -/
def wireIds (st : ConnState) : List ReqId := st.wire.map Prod.fst

/-- The counters of the dispatcher-generated ids in a list of ids. -/
def genIdsOf (l : List ReqId) : List Nat :=
  l.filterMap (fun i => match i with | ReqId.genId n => some n | _ => none)

/-- Modelled from the spec: submitting a request (the common part of
`arti_rpc_conn_execute` and `arti_rpc_conn_execute_with_handle`).  The
caller's JSON is modelled as its bytes together with the extracted
top-level `id` field (`none` when the field is omitted).  The dispatcher
first validates the input (UTF-8), refuses submissions on a closed
connection, refuses a caller-supplied id that is already live in the
registry with `INVALID_INPUT` and sends nothing, generates a fresh id
from the monotone counter when the id is omitted, and otherwise records
the id as live and writes the framed message to the wire. -/
def submit (st : ConnState) (msgBytes : List Nat) (idField : Option CallerId) :
    Nat × ConnState :=
  if utf8Valid msgBytes = false then
    (ARTI_RPC_STATUS_INVALID_INPUT, st)
  else if st.closed then
    (ARTI_RPC_STATUS_SHUTDOWN, st)
  else
    match idField with
    | some c =>
      if c.toReqId ∈ st.liveIds then
        (ARTI_RPC_STATUS_INVALID_INPUT, st)
      else
        (ARTI_RPC_STATUS_SUCCESS,
          { st with liveIds := c.toReqId :: st.liveIds,
                    wire := st.wire ++ [(c.toReqId, msgBytes)] })
    | none =>
      (ARTI_RPC_STATUS_SUCCESS,
        { st with liveIds := ReqId.genId st.nextId :: st.liveIds,
                  nextId := st.nextId + 1,
                  wire := st.wire ++ [(ReqId.genId st.nextId, msgBytes)] })

/-- Events in a connection's lifetime: a submission, the termination and
release of a request's registry entry (after which its id is no longer
live), and loss of the connection. -/
inductive ConnEv
  | submit (bytes : List Nat) (idField : Option CallerId)
  | release (i : ReqId)
  | connLost
deriving DecidableEq

def connStep (st : ConnState) : ConnEv → ConnState
  | ConnEv.submit b i => (submit st b i).2
  | ConnEv.release i => { st with liveIds := st.liveIds.erase i }
  | ConnEv.connLost => { st with closed := true }

def initConn (sid : String) : ConnState := ⟨sid, [], 0, [], false⟩

def runConn (sid : String) (evs : List ConnEv) : ConnState :=
  evs.foldl connStep (initConn sid)

/-- Modelled from the spec: `arti_rpc_conn_get_session_id` returns the
session object id negotiated when the connection was established; it is a
plain field read (no blocking, no mutation). -/
def arti_rpc_conn_get_session_id (st : ConnState) : String := st.sessionId

/-! ## Connecting: authentication and the connect-point search path -/

/-- Modelled from the spec: the classified outcomes of the authentication
handshake.  On success the peer hands over the session object id, an
opaque server-assigned string naming the authenticated session object. -/
inductive AuthOutcome
  | success (sessionId : String)
  | badAuth
  | protoViolation
  | connectIo
  | notUsable
deriving DecidableEq

/-- Modelled from the spec: establishing a connection performs the
handshake and stores the negotiated session id in the new connection.
A handshake reply lacking a session object id (modelled as the empty
string) is a malformed hello, classified as a peer protocol violation. -/
def connect (a : AuthOutcome) : Except Nat ConnState :=
  match a with
  | AuthOutcome.success sid =>
    if sid = "" then Except.error ARTI_RPC_STATUS_PEER_PROTOCOL_VIOLATION
    else Except.ok (initConn sid)
  | AuthOutcome.badAuth => Except.error ARTI_RPC_STATUS_BAD_AUTH
  | AuthOutcome.protoViolation => Except.error ARTI_RPC_STATUS_PEER_PROTOCOL_VIOLATION
  | AuthOutcome.connectIo => Except.error ARTI_RPC_STATUS_CONNECT_IO
  | AuthOutcome.notUsable => Except.error ARTI_RPC_STATUS_CONNECT_POINT_NOT_USABLE

/-- A connect-point search path entry, the tagged variant of the spec's
data model (`LiteralSpec(text)`, `ExpandablePath(path)`,
`LiteralPath(path)`). -/
inductive SPEntry
  | literalSpec (text : String)
  | expandablePath (path : String)
  | literalPath (path : String)
deriving DecidableEq

/-- Modelled from the spec: evaluating one search-path entry yields
Usable (transport opened and authentication succeeded, producing the
connection), Decline (the evaluator continues with the next entry), or
Abort (the evaluator stops with the given status). -/
inductive EvalOutcome
  | usable (conn : ConnState)
  | decline
  | abort (status : Nat)
deriving DecidableEq

/-- Modelled from the spec: entries are tried in order; the first entry
that successfully produces an authenticated connection wins; a declining
entry is skipped; an aborting entry stops the search; an exhausted path
reports `ALL_CONNECT_ATTEMPTS_FAILED`. -/
def evalPath (evalEntry : SPEntry → EvalOutcome) : List SPEntry → Except Nat ConnState
  | [] => Except.error ARTI_RPC_STATUS_ALL_CONNECT_ATTEMPTS_FAILED
  | e :: rest =>
    match evalEntry e with
    | EvalOutcome.usable c => Except.ok c
    | EvalOutcome.decline => evalPath evalEntry rest
    | EvalOutcome.abort s => Except.error s

/-- Modelled from the spec: the search path evaluated by
`arti_rpc_conn_builder_connect` is, in order: (1) entries from the
override environment variable `ARTI_RPC_CONNECT_PATH_OVERRIDE`,
(2) caller-prepended entries in the order given, (3) entries from the
default search-path environment variable `ARTI_RPC_CONNECT_PATH`,
(4) built-in defaults. -/
def buildSearchPath (overrideEnv prepended defaultEnv builtin : List SPEntry) :
    List SPEntry :=
  overrideEnv ++ prepended ++ defaultEnv ++ builtin

/-- Modelled from the spec: `arti_rpc_conn_builder_connect` evaluates the
assembled search path in order. -/
def arti_rpc_conn_builder_connect (evalEntry : SPEntry → EvalOutcome)
    (overrideEnv prepended defaultEnv builtin : List SPEntry) : Except Nat ConnState :=
  evalPath evalEntry (buildSearchPath overrideEnv prepended defaultEnv builtin)

/-! ## Invariants of the handle state machine -/

theorem allUpdates_append (l r : List PeerMsg) :
    allUpdates (l ++ r) = (allUpdates l && allUpdates r) := by
  simp [allUpdates, List.all_append]

theorem allUpdates_left {l r : List PeerMsg} (h : allUpdates (l ++ r) = true) :
    allUpdates l = true := by
  rw [allUpdates_append] at h
  exact (Bool.and_eq_true_iff.mp h).1

theorem allUpdates_mem {l : List PeerMsg} {m : PeerMsg}
    (h : allUpdates l = true) (hm : m ∈ l) : m.isTerminal = false := by
  simp only [allUpdates, List.all_eq_true] at h
  have := h m hm
  simpa using this

theorem allUpdates_no_terminal {l : List PeerMsg} (h : allUpdates l = true) :
    l.any PeerMsg.isTerminal = false := by
  simp only [List.any_eq_false]
  intro m hm
  simpa using allUpdates_mem h hm

/-- In a list of the shape `us ++ [t]` with every element of `us` a
non-terminal update, any terminal message inside the left part of a split
`d ++ q` forces the right part to be empty. -/
theorem terminal_in_left_split :
    ∀ (d us q : List PeerMsg) (t : PeerMsg),
      d ++ q = us ++ [t] → allUpdates us = true →
      d.any PeerMsg.isTerminal = true → q = []
  | [], us, q, t, h, hus, hd => by simp at hd
  | x :: d2, us, q, t, h, hus, hd => by
    cases us with
    | nil =>
      simp only [List.nil_append] at h
      have h2 : x = t ∧ d2 ++ q = [] := by
        constructor
        · exact (List.cons_eq_cons.mp h).1
        · exact (List.cons_eq_cons.mp h).2
      exact (List.append_eq_nil.mp h2.2).2
    | cons u us2 =>
      simp only [List.cons_append] at h
      have hx : x = u := (List.cons_eq_cons.mp h).1
      have h2 : d2 ++ q = us2 ++ [t] := (List.cons_eq_cons.mp h).2
      have hu : u.isTerminal = false := allUpdates_mem hus (List.mem_cons_self u us2)
      have hus2 : allUpdates us2 = true := by
        simp only [allUpdates, List.all_cons, Bool.and_eq_true] at hus
        exact hus.2
      have hd2 : d2.any PeerMsg.isTerminal = true := by
        simp only [List.any_cons, Bool.or_eq_true] at hd
        cases hd with
        | inl hterm => rw [hx] at hterm; rw [hu] at hterm; cases hterm
        | inr hrest => exact hrest
      exact terminal_in_left_split d2 us2 q t h2 hus2 hd2

/-- The inductive invariant of one registry entry: a pending entry has
received only updates; a normally-terminated entry's message sequence is
updates followed by one terminal message; a lost entry has received only
updates; and once a terminal message has been consumed by a waiter the
queue is empty. -/
structure EntryInv (e : Entry) : Prop where
  pend : e.state = EntryState.pending → allUpdates e.msgs = true
  term : ∀ k, e.state = EntryState.terminated k → k ≠ TermKind.connectionLost →
    ∃ us t, e.msgs = us ++ [t] ∧ allUpdates us = true ∧ t.isTerminal = true
  lost : e.state = EntryState.terminated TermKind.connectionLost →
    allUpdates e.msgs = true
  tdel : e.terminalDelivered = true → e.queue = []

theorem entryInv_init : EntryInv initEntry := by
  refine ⟨?_, ?_, ?_, ?_⟩
  · intro _
    simp [initEntry, Entry.msgs, allUpdates]
  · intro k hk
    simp [initEntry] at hk
  · intro hk
    simp [initEntry] at hk
  · intro h
    simp [initEntry, Entry.terminalDelivered] at h

theorem entryInv_pending_mk (q d : List PeerMsg)
    (hall : allUpdates (d ++ q) = true) :
    EntryInv ⟨EntryState.pending, q, d⟩ := by
  refine ⟨?_, ?_, ?_, ?_⟩
  · intro _
    simpa [Entry.msgs] using hall
  · intro k hk
    cases hk
  · intro hk
    cases hk
  · intro h
    exfalso
    simp only [Entry.terminalDelivered] at h
    rw [allUpdates_no_terminal (allUpdates_left hall)] at h
    cases h

theorem entryInv_lost_mk (q d : List PeerMsg)
    (hall : allUpdates (d ++ q) = true) :
    EntryInv ⟨EntryState.terminated TermKind.connectionLost, q, d⟩ := by
  refine ⟨?_, ?_, ?_, ?_⟩
  · intro hk
    cases hk
  · intro k hk hk2
    injection hk with hk3
    exact absurd hk3.symm hk2
  · intro _
    simpa [Entry.msgs] using hall
  · intro h
    exfalso
    simp only [Entry.terminalDelivered] at h
    rw [allUpdates_no_terminal (allUpdates_left hall)] at h
    cases h

theorem entryInv_term_mk (q d us : List PeerMsg) (t : PeerMsg) (k : TermKind)
    (hk : k ≠ TermKind.connectionLost)
    (hsplit : d ++ q = us ++ [t]) (hus : allUpdates us = true)
    (ht : t.isTerminal = true) :
    EntryInv ⟨EntryState.terminated k, q, d⟩ := by
  refine ⟨?_, ?_, ?_, ?_⟩
  · intro hc
    cases hc
  · intro k2 hk2 _
    refine ⟨us, t, ?_, hus, ht⟩
    simpa [Entry.msgs] using hsplit
  · intro hc
    injection hc with hc2
    exact absurd hc2 hk
  · intro h
    simp only [Entry.terminalDelivered] at h
    exact terminal_in_left_split d us q t hsplit hus h

/-- Every entry event preserves the entry invariant. -/
theorem entryInv_step {e : Entry} (h : EntryInv e) (ev : HEv) :
    EntryInv (entryStep e ev) := by
  obtain ⟨st, q, d⟩ := e
  cases ev with
  | recv m =>
    cases st with
    | pending =>
      have hall : allUpdates (d ++ q) = true := by
        simpa [Entry.msgs] using h.pend rfl
      cases m with
      | update b =>
        show EntryInv ⟨EntryState.pending, q ++ [PeerMsg.update b], d⟩
        apply entryInv_pending_mk
        rw [← List.append_assoc, allUpdates_append, hall]
        simp [allUpdates, PeerMsg.isTerminal]
      | result b =>
        show EntryInv ⟨EntryState.terminated TermKind.result,
          q ++ [PeerMsg.result b], d⟩
        exact entryInv_term_mk (q ++ [PeerMsg.result b]) d (d ++ q)
          (PeerMsg.result b) TermKind.result (by intro hc; cases hc)
          (List.append_assoc d q [PeerMsg.result b]).symm hall rfl
      | error b =>
        show EntryInv ⟨EntryState.terminated TermKind.error,
          q ++ [PeerMsg.error b], d⟩
        exact entryInv_term_mk (q ++ [PeerMsg.error b]) d (d ++ q)
          (PeerMsg.error b) TermKind.error (by intro hc; cases hc)
          (List.append_assoc d q [PeerMsg.error b]).symm hall rfl
    | terminated k =>
      show EntryInv ⟨EntryState.terminated k, q, d⟩
      exact h
  | cancelAck =>
    cases st with
    | pending =>
      have hall : allUpdates (d ++ q) = true := by
        simpa [Entry.msgs] using h.pend rfl
      show EntryInv ⟨EntryState.terminated TermKind.cancelled,
        q ++ [PeerMsg.error "request cancelled"], d⟩
      exact entryInv_term_mk (q ++ [PeerMsg.error "request cancelled"]) d (d ++ q)
        (PeerMsg.error "request cancelled") TermKind.cancelled (by intro hc; cases hc)
        (List.append_assoc d q [PeerMsg.error "request cancelled"]).symm hall rfl
    | terminated k =>
      show EntryInv ⟨EntryState.terminated k, q, d⟩
      exact h
  | connLost =>
    cases st with
    | pending =>
      have hall : allUpdates (d ++ q) = true := by
        simpa [Entry.msgs] using h.pend rfl
      show EntryInv ⟨EntryState.terminated TermKind.connectionLost, q, d⟩
      exact entryInv_lost_mk q d hall
    | terminated k =>
      show EntryInv ⟨EntryState.terminated k, q, d⟩
      exact h
  | wait =>
    cases q with
    | nil =>
      show EntryInv ⟨st, [], d⟩
      exact h
    | cons m rest =>
      show EntryInv ⟨st, rest, d ++ [m]⟩
      cases hd : d.any PeerMsg.isTerminal with
      | true =>
        have hq : (⟨st, m :: rest, d⟩ : Entry).queue = [] :=
          h.tdel (by simpa [Entry.terminalDelivered] using hd)
        simp at hq
      | false =>
        cases st with
        | pending =>
          have hall : allUpdates (d ++ m :: rest) = true := by
            simpa [Entry.msgs] using h.pend rfl
          apply entryInv_pending_mk
          rw [List.append_assoc]
          simpa using hall
        | terminated k =>
          cases k with
          | connectionLost =>
            have hall : allUpdates (d ++ m :: rest) = true := by
              simpa [Entry.msgs] using h.lost rfl
            apply entryInv_lost_mk
            rw [List.append_assoc]
            simpa using hall
          | result =>
            obtain ⟨us, t, hsplit, hus, ht⟩ := h.term TermKind.result rfl
              (by intro hc; cases hc)
            refine entryInv_term_mk rest (d ++ [m]) us t TermKind.result
              (by intro hc; cases hc) ?_ hus ht
            rw [List.append_assoc]
            simpa [Entry.msgs] using hsplit
          | error =>
            obtain ⟨us, t, hsplit, hus, ht⟩ := h.term TermKind.error rfl
              (by intro hc; cases hc)
            refine entryInv_term_mk rest (d ++ [m]) us t TermKind.error
              (by intro hc; cases hc) ?_ hus ht
            rw [List.append_assoc]
            simpa [Entry.msgs] using hsplit
          | cancelled =>
            obtain ⟨us, t, hsplit, hus, ht⟩ := h.term TermKind.cancelled rfl
              (by intro hc; cases hc)
            refine entryInv_term_mk rest (d ++ [m]) us t TermKind.cancelled
              (by intro hc; cases hc) ?_ hus ht
            rw [List.append_assoc]
            simpa [Entry.msgs] using hsplit

theorem entryInv_foldl {e : Entry} (h : EntryInv e) (evs : List HEv) :
    EntryInv (evs.foldl entryStep e) := by
  induction evs generalizing e with
  | nil => exact h
  | cons ev rest ih => exact ih (entryInv_step h ev)

theorem entryInv_run (evs : List HEv) : EntryInv (runEntry evs) :=
  entryInv_foldl entryInv_init evs

/-- Once a terminal message has been consumed, every event leaves the
entry unchanged: nothing further is enqueued or delivered. -/
theorem entryStep_frozen {e : Entry} (h : EntryInv e)
    (ht : e.terminalDelivered = true) (ev : HEv) : entryStep e ev = e := by
  obtain ⟨st, q, d⟩ := e
  have hq : q = [] := by simpa using h.tdel ht
  subst hq
  have hd : d.any PeerMsg.isTerminal = true := by
    simpa [Entry.terminalDelivered] using ht
  cases st with
  | pending =>
    exfalso
    have hall : allUpdates d = true := by
      simpa [Entry.msgs] using h.pend rfl
    rw [allUpdates_no_terminal hall] at hd
    cases hd
  | terminated k =>
    cases ev with
    | recv m => rfl
    | cancelAck => rfl
    | connLost => rfl
    | wait => rfl

theorem runEntry_frozen {e : Entry} (h : EntryInv e)
    (ht : e.terminalDelivered = true) (evs : List HEv) :
    evs.foldl entryStep e = e := by
  induction evs with
  | nil => rfl
  | cons ev rest ih => rw [List.foldl_cons, entryStep_frozen h ht ev]; exact ih

/-- Once a terminal message has been consumed, the delivered sequence is
updates followed by exactly one terminal message, the queue is drained,
and the entry is normally terminated. -/
theorem terminalDelivered_shape {e : Entry} (h : EntryInv e)
    (ht : e.terminalDelivered = true) :
    ∃ us t k, e.delivered = us ++ [t] ∧ allUpdates us = true ∧ t.isTerminal = true
      ∧ e.queue = [] ∧ e.state = EntryState.terminated k
      ∧ k ≠ TermKind.connectionLost := by
  obtain ⟨st, q, d⟩ := e
  have hq : q = [] := by simpa using h.tdel ht
  subst hq
  have hd : d.any PeerMsg.isTerminal = true := by
    simpa [Entry.terminalDelivered] using ht
  cases st with
  | pending =>
    exfalso
    have hall : allUpdates d = true := by
      simpa [Entry.msgs] using h.pend rfl
    rw [allUpdates_no_terminal hall] at hd
    cases hd
  | terminated k =>
    have hk : k ≠ TermKind.connectionLost := by
      intro hkk
      subst hkk
      have hall : allUpdates d = true := by
        simpa [Entry.msgs] using h.lost rfl
      rw [allUpdates_no_terminal hall] at hd
      cases hd
    obtain ⟨us, t, hsplit, hus, htm⟩ := h.term k rfl hk
    refine ⟨us, t, k, ?_, hus, htm, rfl, rfl, hk⟩
    simpa [Entry.msgs] using hsplit

theorem waitRes_completed {e : Entry} {k : TermKind} (hq : e.queue = [])
    (hst : e.state = EntryState.terminated k) (hk : k ≠ TermKind.connectionLost) :
    waitRes e = WaitRes.completed := by
  obtain ⟨st, q, d⟩ := e
  simp only at hq hst
  subst hq
  subst hst
  cases k with
  | connectionLost => exact absurd rfl hk
  | result => rfl
  | error => rfl
  | cancelled => rfl

/-- C1: For every handle, the sequence of messages delivered through
`handle.wait` is a (possibly empty) prefix of UPDATE messages followed by
exactly one terminal message (RESULT or ERROR), unless the connection is
lost; after the terminal message has been consumed by some waiter, every
further `handle.wait` call on that handle returns status
`REQUEST_COMPLETED` and no further messages are ever delivered for it.
Formally: in any run of the entry state machine in which a terminal
message has been consumed, the delivered sequence consists of updates
followed by one final terminal message, and under any continuation of the
run the delivered sequence never changes and a wait observes
`REQUEST_COMPLETED`. -/
theorem c1_delivery_sequence (evs evs' : List HEv)
    (h : (runEntry evs).terminalDelivered = true) :
    allUpdates (runEntry evs).delivered.dropLast = true
    ∧ lastIsTerminal (runEntry evs).delivered = true
    ∧ (runEntry (evs ++ evs')).delivered = (runEntry evs).delivered
    ∧ waitRes (runEntry (evs ++ evs')) = WaitRes.completed
    ∧ waitStatus (waitRes (runEntry (evs ++ evs')))
        = some ARTI_RPC_STATUS_REQUEST_COMPLETED := by
  have hinv := entryInv_run evs
  obtain ⟨us, t, k, hdel, hus, htm, hq, hst, hk⟩ := terminalDelivered_shape hinv h
  have hfrozen : runEntry (evs ++ evs') = runEntry evs := by
    rw [runEntry, List.foldl_append]
    exact runEntry_frozen hinv h evs'
  have hcomp : waitRes (runEntry evs) = WaitRes.completed :=
    waitRes_completed hq hst hk
  refine ⟨?_, ?_, ?_, ?_, ?_⟩
  · rw [hdel, List.dropLast_concat]
    exact hus
  · rw [hdel]
    simp [lastIsTerminal, List.getLast?_concat, htm]
  · rw [hfrozen]
  · rw [hfrozen]
    exact hcomp
  · rw [hfrozen, hcomp]
    rfl

/-- Witness for C1 at a concrete run: one update and one result are
received and both consumed; afterwards a further wait observes
`REQUEST_COMPLETED` and the delivered sequence stays fixed. -/
theorem c1_delivery_sequence_witness :
    (runEntry [HEv.recv (PeerMsg.update "u"), HEv.wait,
      HEv.recv (PeerMsg.result "r"), HEv.wait]).terminalDelivered = true
    ∧ (allUpdates (runEntry [HEv.recv (PeerMsg.update "u"), HEv.wait,
        HEv.recv (PeerMsg.result "r"), HEv.wait]).delivered.dropLast = true
      ∧ lastIsTerminal (runEntry [HEv.recv (PeerMsg.update "u"), HEv.wait,
          HEv.recv (PeerMsg.result "r"), HEv.wait]).delivered = true
      ∧ (runEntry ([HEv.recv (PeerMsg.update "u"), HEv.wait,
          HEv.recv (PeerMsg.result "r"), HEv.wait] ++ [HEv.wait])).delivered
        = (runEntry [HEv.recv (PeerMsg.update "u"), HEv.wait,
            HEv.recv (PeerMsg.result "r"), HEv.wait]).delivered
      ∧ waitRes (runEntry ([HEv.recv (PeerMsg.update "u"), HEv.wait,
          HEv.recv (PeerMsg.result "r"), HEv.wait] ++ [HEv.wait]))
        = WaitRes.completed
      ∧ waitStatus (waitRes (runEntry ([HEv.recv (PeerMsg.update "u"), HEv.wait,
          HEv.recv (PeerMsg.result "r"), HEv.wait] ++ [HEv.wait])))
        = some ARTI_RPC_STATUS_REQUEST_COMPLETED) :=
  ⟨by decide,
    c1_delivery_sequence
      [HEv.recv (PeerMsg.update "u"), HEv.wait,
        HEv.recv (PeerMsg.result "r"), HEv.wait]
      [HEv.wait] (by decide)⟩

theorem executeReplies_error (us : List PeerMsg) (body : String)
    (hus : allUpdates us = true) :
    executeReplies (us ++ [PeerMsg.error body])
      = (ARTI_RPC_STATUS_REQUEST_FAILED, none) := by
  induction us with
  | nil => rfl
  | cons u ut ih =>
    have hu : u.isTerminal = false := allUpdates_mem hus (List.mem_cons_self u ut)
    have hut : allUpdates ut = true := by
      simp only [allUpdates, List.all_cons, Bool.and_eq_true] at hus
      exact hus.2
    cases u with
    | update b => simpa [executeReplies] using ih hut
    | result b => simp [PeerMsg.isTerminal] at hu
    | error b => simp [PeerMsg.isTerminal] at hu

/-- C2: When the peer replies to a request with a protocol-level error
message, `handle.wait` on that request's handle returns status SUCCESS
with response type ERROR and the error reply delivered as the response
string; only `conn.execute`, which demands a successful result, surfaces
such a peer error reply as status `REQUEST_FAILED`. -/
theorem c2_error_reply_wait_vs_execute (e : Entry) (body : String)
    (rest us : List PeerMsg)
    (hq : e.queue = PeerMsg.error body :: rest)
    (hus : allUpdates us = true) :
    waitRes e = WaitRes.delivered body ARTI_RPC_RESPONSE_TYPE_ERROR
    ∧ waitStatus (waitRes e) = some ARTI_RPC_STATUS_SUCCESS
    ∧ executeReplies (us ++ [PeerMsg.error body])
        = (ARTI_RPC_STATUS_REQUEST_FAILED, none) := by
  refine ⟨?_, ?_, executeReplies_error us body hus⟩
  · simp [waitRes, hq, PeerMsg.body, responseTypeOf]
  · simp [waitRes, hq, waitStatus]

/-- Witness for C2 at a concrete handle whose queue holds a peer error
reply, after one consumed update. -/
theorem c2_error_reply_witness :
    (runEntry [HEv.recv (PeerMsg.error "boom")]).queue
        = PeerMsg.error "boom" :: []
    ∧ allUpdates [PeerMsg.update "p"] = true
    ∧ (waitRes (runEntry [HEv.recv (PeerMsg.error "boom")])
        = WaitRes.delivered "boom" ARTI_RPC_RESPONSE_TYPE_ERROR
      ∧ waitStatus (waitRes (runEntry [HEv.recv (PeerMsg.error "boom")]))
        = some ARTI_RPC_STATUS_SUCCESS
      ∧ executeReplies ([PeerMsg.update "p"] ++ [PeerMsg.error "boom"])
        = (ARTI_RPC_STATUS_REQUEST_FAILED, none)) :=
  ⟨by decide, by decide,
    c2_error_reply_wait_vs_execute (runEntry [HEv.recv (PeerMsg.error "boom")])
      "boom" [] [PeerMsg.update "p"] (by decide) (by decide)⟩

/-- C3: Cancelling a handle whose registry entry is already terminated
(result, error, cancellation acknowledgement or connection loss already
recorded) returns status `REQUEST_COMPLETED`, not an error of the
original request; likewise when the peer's normal terminal message
arrives before the cancel takes effect, the cancel is a no-op returning
`REQUEST_COMPLETED`. -/
theorem c3_cancel_terminated (e e2 : Entry) (k : TermKind) (m : PeerMsg)
    (hterm : e.state = EntryState.terminated k)
    (hpend : e2.state = EntryState.pending)
    (hm : m.isTerminal = true) :
    arti_rpc_conn_cancel_handle e = (ARTI_RPC_STATUS_REQUEST_COMPLETED, e)
    ∧ (arti_rpc_conn_cancel_handle (entryStep e2 (HEv.recv m))).1
        = ARTI_RPC_STATUS_REQUEST_COMPLETED := by
  constructor
  · simp [arti_rpc_conn_cancel_handle, hterm]
  · cases m with
    | update b => simp [PeerMsg.isTerminal] at hm
    | result b => simp [entryStep, hpend, arti_rpc_conn_cancel_handle]
    | error b => simp [entryStep, hpend, arti_rpc_conn_cancel_handle]

/-- Witness for C3: cancelling a lost-connection entry, and cancelling
right after a result arrived on a pending entry, both report
`REQUEST_COMPLETED`. -/
theorem c3_cancel_terminated_witness :
    (runEntry [HEv.recv (PeerMsg.update "u"), HEv.connLost]).state
        = EntryState.terminated TermKind.connectionLost
    ∧ (initEntry.state = EntryState.pending
      ∧ (PeerMsg.result "done").isTerminal = true)
    ∧ (arti_rpc_conn_cancel_handle
          (runEntry [HEv.recv (PeerMsg.update "u"), HEv.connLost])
        = (ARTI_RPC_STATUS_REQUEST_COMPLETED,
            runEntry [HEv.recv (PeerMsg.update "u"), HEv.connLost])
      ∧ (arti_rpc_conn_cancel_handle
            (entryStep initEntry (HEv.recv (PeerMsg.result "done")))).1
          = ARTI_RPC_STATUS_REQUEST_COMPLETED) :=
  ⟨by decide, ⟨by decide, by decide⟩,
    c3_cancel_terminated
      (runEntry [HEv.recv (PeerMsg.update "u"), HEv.connLost])
      initEntry TermKind.connectionLost (PeerMsg.result "done")
      (by decide) (by decide) (by decide)⟩

/-! ## Invariants of the connection dispatcher -/

theorem callerId_toReqId_not_gen (c : CallerId) (n : Nat) :
    c.toReqId ≠ ReqId.genId n := by
  cases c <;> intro h <;> cases h

theorem genIdsOf_append (l r : List ReqId) :
    genIdsOf (l ++ r) = genIdsOf l ++ genIdsOf r := by
  simp [genIdsOf, List.filterMap_append]

theorem genIdsOf_caller (c : CallerId) : genIdsOf [c.toReqId] = [] := by
  cases c <;> rfl

theorem mem_of_mem_genIdsOf {l : List ReqId} {n : Nat} (h : n ∈ genIdsOf l) :
    ReqId.genId n ∈ l := by
  simp only [genIdsOf, List.mem_filterMap] at h
  obtain ⟨i, hi, hmatch⟩ := h
  cases i with
  | genId m =>
    simp only [Option.some.injEq] at hmatch
    rw [← hmatch]
    exact hi
  | callerStr s => simp at hmatch
  | callerNum m => simp at hmatch

theorem submit_none_eq (st : ConnState) (bytes : List Nat)
    (hu : utf8Valid bytes = true) (hc : st.closed = false) :
    submit st bytes none = (ARTI_RPC_STATUS_SUCCESS,
      { st with liveIds := ReqId.genId st.nextId :: st.liveIds,
                nextId := st.nextId + 1,
                wire := st.wire ++ [(ReqId.genId st.nextId, bytes)] }) := by
  simp [submit, hu, hc]

theorem submit_some_live_eq (st : ConnState) (bytes : List Nat) (c : CallerId)
    (hu : utf8Valid bytes = true) (hc : st.closed = false)
    (hi : c.toReqId ∈ st.liveIds) :
    submit st bytes (some c) = (ARTI_RPC_STATUS_INVALID_INPUT, st) := by
  simp [submit, hu, hc, hi]

theorem submit_some_new_eq (st : ConnState) (bytes : List Nat) (c : CallerId)
    (hu : utf8Valid bytes = true) (hc : st.closed = false)
    (hi : c.toReqId ∉ st.liveIds) :
    submit st bytes (some c) = (ARTI_RPC_STATUS_SUCCESS,
      { st with liveIds := c.toReqId :: st.liveIds,
                wire := st.wire ++ [(c.toReqId, bytes)] }) := by
  simp [submit, hu, hc, hi]

/-- The inductive invariant of the dispatcher: live ids are pairwise
distinct; every generated id seen so far is below the monotone counter;
and the generated ids on the wire never repeat. -/
structure ConnInv (st : ConnState) : Prop where
  liveNodup : st.liveIds.Nodup
  liveGenLt : ∀ n, ReqId.genId n ∈ st.liveIds → n < st.nextId
  wireGenLt : ∀ n, ReqId.genId n ∈ wireIds st → n < st.nextId
  wireGenNodup : (genIdsOf (wireIds st)).Nodup

theorem connInv_init (sid : String) : ConnInv (initConn sid) := by
  refine ⟨List.nodup_nil, ?_, ?_, ?_⟩
  · intro n hmem
    simp [initConn] at hmem
  · intro n hmem
    simp [initConn, wireIds] at hmem
  · simp [initConn, wireIds, genIdsOf]

theorem connInv_step {st : ConnState} (h : ConnInv st) (ev : ConnEv) :
    ConnInv (connStep st ev) := by
  obtain ⟨hnodup, hlive, hwire, hgen⟩ := h
  cases ev with
  | submit bytes idF =>
    show ConnInv (submit st bytes idF).2
    cases hu : utf8Valid bytes with
    | false =>
      simpa [submit, hu] using (⟨hnodup, hlive, hwire, hgen⟩ : ConnInv st)
    | true =>
      cases hc : st.closed with
      | true =>
        simpa [submit, hu, hc] using (⟨hnodup, hlive, hwire, hgen⟩ : ConnInv st)
      | false =>
        cases idF with
        | none =>
          rw [submit_none_eq st bytes hu hc]
          have hw : wireIds { st with
              liveIds := ReqId.genId st.nextId :: st.liveIds,
              nextId := st.nextId + 1,
              wire := st.wire ++ [(ReqId.genId st.nextId, bytes)] }
              = wireIds st ++ [ReqId.genId st.nextId] := by
            simp [wireIds]
          refine ⟨?_, ?_, ?_, ?_⟩
          · refine List.nodup_cons.mpr ⟨?_, hnodup⟩
            intro hmem
            exact absurd (hlive st.nextId hmem) (Nat.lt_irrefl st.nextId)
          · intro n hmem
            rcases List.mem_cons.mp hmem with heq | hmem2
            · injection heq with h2
              show n < st.nextId + 1
              omega
            · exact Nat.lt_succ_of_lt (hlive n hmem2)
          · intro n hmem
            rw [hw] at hmem
            rcases List.mem_append.mp hmem with hmem2 | hmem2
            · exact Nat.lt_succ_of_lt (hwire n hmem2)
            · simp only [List.mem_singleton] at hmem2
              injection hmem2 with h2
              show n < st.nextId + 1
              omega
          · rw [hw, genIdsOf_append]
            simp only [List.nodup_append]
            refine ⟨hgen, by simp [genIdsOf], ?_⟩
            intro n hmem hmem2
            have hmemw : ReqId.genId n ∈ wireIds st := mem_of_mem_genIdsOf hmem
            have hlt := hwire n hmemw
            simp only [genIdsOf, List.filterMap_cons, List.filterMap_nil] at hmem2
            simp only [List.mem_singleton] at hmem2
            omega
        | some c =>
          by_cases hi : c.toReqId ∈ st.liveIds
          · rw [submit_some_live_eq st bytes c hu hc hi]
            exact ⟨hnodup, hlive, hwire, hgen⟩
          · rw [submit_some_new_eq st bytes c hu hc hi]
            have hw : wireIds { st with
                liveIds := c.toReqId :: st.liveIds,
                wire := st.wire ++ [(c.toReqId, bytes)] }
                = wireIds st ++ [c.toReqId] := by
              simp [wireIds]
            refine ⟨?_, ?_, ?_, ?_⟩
            · exact List.nodup_cons.mpr ⟨hi, hnodup⟩
            · intro n hmem
              rcases List.mem_cons.mp hmem with heq | hmem2
              · exact absurd heq.symm (callerId_toReqId_not_gen c n)
              · exact hlive n hmem2
            · intro n hmem
              rw [hw] at hmem
              rcases List.mem_append.mp hmem with hmem2 | hmem2
              · exact hwire n hmem2
              · simp only [List.mem_singleton] at hmem2
                exact absurd hmem2.symm (callerId_toReqId_not_gen c n)
            · rw [hw, genIdsOf_append, genIdsOf_caller, List.append_nil]
              exact hgen
  | release i =>
    refine ⟨hnodup.erase i, ?_, hwire, hgen⟩
    intro n hmem
    exact hlive n (List.mem_of_mem_erase hmem)
  | connLost =>
    exact ⟨hnodup, hlive, hwire, hgen⟩

theorem connInv_foldl {st : ConnState} (h : ConnInv st) (evs : List ConnEv) :
    ConnInv (evs.foldl connStep st) := by
  induction evs generalizing st with
  | nil => exact h
  | cons ev rest ih => exact ih (connInv_step h ev)

theorem connInv_run (sid : String) (evs : List ConnEv) :
    ConnInv (runConn sid evs) :=
  connInv_foldl (connInv_init sid) evs

/-- C4 counterexample: the claim's two halves contradict each other.  The
dispatcher refuses a caller-supplied id only while that id is live in the
registry, so after a request with caller id 1 terminates and its entry is
released, a second submission with the same caller id 1 is accepted and
the wire carries the same id twice — wire ids are not unique across the
connection's entire lifetime.  (The bytes `[123, 125]` are the UTF-8
text of an empty JSON object.) -/
theorem c4_counterexample :
    (submit (runConn "s" [ConnEv.submit [123, 125] (some (CallerId.num 1)),
        ConnEv.release (ReqId.callerNum 1)]) [123, 125]
        (some (CallerId.num 1))).1 = ARTI_RPC_STATUS_SUCCESS
    ∧ wireIds (runConn "s" [ConnEv.submit [123, 125] (some (CallerId.num 1)),
        ConnEv.release (ReqId.callerNum 1),
        ConnEv.submit [123, 125] (some (CallerId.num 1))])
      = [ReqId.callerNum 1, ReqId.callerNum 1]
    ∧ ¬ (wireIds (runConn "s" [ConnEv.submit [123, 125] (some (CallerId.num 1)),
        ConnEv.release (ReqId.callerNum 1),
        ConnEv.submit [123, 125] (some (CallerId.num 1))])).Nodup := by
  decide

/-- C4 (amended): ids of simultaneously live requests are pairwise
distinct, and dispatcher-generated ids are unique across the connection's
entire lifetime; submitting with a caller-supplied id that is currently
live in the registry fails with `INVALID_INPUT` and sends no bytes (the
connection state, including the wire, is unchanged).  A caller-supplied
id may however be reused after its original request has terminated and
been released, so whole-lifetime uniqueness of wire ids holds only for
dispatcher-generated ids. -/
theorem c4_amended_id_uniqueness (sid : String) (evs : List ConnEv)
    (bytes : List Nat) (c : CallerId)
    (hu : utf8Valid bytes = true)
    (hc : (runConn sid evs).closed = false)
    (hlive : c.toReqId ∈ (runConn sid evs).liveIds) :
    (runConn sid evs).liveIds.Nodup
    ∧ (genIdsOf (wireIds (runConn sid evs))).Nodup
    ∧ submit (runConn sid evs) bytes (some c)
        = (ARTI_RPC_STATUS_INVALID_INPUT, runConn sid evs) := by
  have hinv := connInv_run sid evs
  exact ⟨hinv.liveNodup, hinv.wireGenNodup,
    submit_some_live_eq (runConn sid evs) bytes c hu hc hlive⟩

/-- Witness for the amended C4 at a concrete run: one live caller id,
resubmitting it is refused without a state change. -/
theorem c4_amended_id_uniqueness_witness :
    (utf8Valid [123, 125] = true
    ∧ (runConn "s" [ConnEv.submit [123, 125] (some (CallerId.num 7))]).closed
        = false
    ∧ (CallerId.num 7).toReqId
        ∈ (runConn "s" [ConnEv.submit [123, 125] (some (CallerId.num 7))]).liveIds)
    ∧ ((runConn "s" [ConnEv.submit [123, 125] (some (CallerId.num 7))]).liveIds.Nodup
      ∧ (genIdsOf (wireIds (runConn "s"
          [ConnEv.submit [123, 125] (some (CallerId.num 7))]))).Nodup
      ∧ submit (runConn "s" [ConnEv.submit [123, 125] (some (CallerId.num 7))])
          [123, 125] (some (CallerId.num 7))
        = (ARTI_RPC_STATUS_INVALID_INPUT,
            runConn "s" [ConnEv.submit [123, 125] (some (CallerId.num 7))])) :=
  ⟨⟨by decide, by decide, by decide⟩,
    c4_amended_id_uniqueness "s" [ConnEv.submit [123, 125] (some (CallerId.num 7))]
      [123, 125] (CallerId.num 7) (by decide) (by decide) (by decide)⟩

/-! ## Session id stability -/

theorem submit_sessionId (st : ConnState) (b : List Nat) (idF : Option CallerId) :
    (submit st b idF).2.sessionId = st.sessionId := by
  unfold submit
  split
  · rfl
  · split
    · rfl
    · split
      · split
        · rfl
        · rfl
      · rfl

theorem connStep_sessionId (st : ConnState) (ev : ConnEv) :
    (connStep st ev).sessionId = st.sessionId := by
  cases ev with
  | submit b i => exact submit_sessionId st b i
  | release i => rfl
  | connLost => rfl

theorem foldl_connStep_sessionId (c : ConnState) (evs : List ConnEv) :
    (evs.foldl connStep c).sessionId = c.sessionId := by
  induction evs generalizing c with
  | nil => rfl
  | cons ev rest ih => rw [List.foldl_cons, ih, connStep_sessionId]

/-- C6: For every connection successfully produced by the builder's
connect, the session id is a non-empty string and is the same on every
read for the connection's whole lifetime: no later operation on the
connection (submission, entry release, connection loss) ever changes it.
Reading it is a pure field access, so it never blocks. -/
theorem c6_session_id_nonempty_stable (a : AuthOutcome) (c : ConnState)
    (evs : List ConnEv) (h : connect a = Except.ok c) :
    arti_rpc_conn_get_session_id c ≠ ""
    ∧ arti_rpc_conn_get_session_id (evs.foldl connStep c)
        = arti_rpc_conn_get_session_id c := by
  constructor
  · cases a with
    | success sid =>
      by_cases hs : sid = ""
      · simp [connect, hs] at h
      · simp only [connect, hs, if_neg, ite_false] at h
        have h2 : initConn sid = c := by
          simpa using h
        rw [← h2]
        simpa [arti_rpc_conn_get_session_id, initConn] using hs
    | badAuth => simp [connect] at h
    | protoViolation => simp [connect] at h
    | connectIo => simp [connect] at h
    | notUsable => simp [connect] at h
  · exact foldl_connStep_sessionId c evs

/-- Witness for C6 at a concrete connection and run. -/
theorem c6_session_id_witness :
    connect (AuthOutcome.success "session-1") = Except.ok (initConn "session-1")
    ∧ (arti_rpc_conn_get_session_id (initConn "session-1") ≠ ""
      ∧ arti_rpc_conn_get_session_id
          ([ConnEv.submit [123, 125] none, ConnEv.connLost].foldl connStep
            (initConn "session-1"))
        = arti_rpc_conn_get_session_id (initConn "session-1")) :=
  ⟨by rfl,
    c6_session_id_nonempty_stable (AuthOutcome.success "session-1")
      (initConn "session-1") [ConnEv.submit [123, 125] none, ConnEv.connLost]
      (by rfl)⟩

/-- C8: Caller-input errors are detected before any network action and
cause no state change: submitting a request whose input string is not
valid UTF-8 returns status `INVALID_INPUT` and leaves the connection
state — in particular the wire — unchanged, regardless of the id field
and of the connection's state. -/
theorem c8_invalid_utf8_rejected (st : ConnState) (bytes : List Nat)
    (idF : Option CallerId) (h : utf8Valid bytes = false) :
    submit st bytes idF = (ARTI_RPC_STATUS_INVALID_INPUT, st) := by
  simp [submit, h]

/-- Witness for C8: the lone byte 0xFF is not valid UTF-8 and is
rejected without a state change. -/
theorem c8_invalid_utf8_witness :
    utf8Valid [255] = false
    ∧ submit (initConn "s") [255] none
        = (ARTI_RPC_STATUS_INVALID_INPUT, initConn "s") :=
  ⟨by decide, c8_invalid_utf8_rejected (initConn "s") [255] none (by decide)⟩

/-! ## Connect-point search-path evaluation -/

theorem evalPath_first_usable (evalEntry : SPEntry → EvalOutcome)
    (l : List SPEntry) (e : SPEntry) (r : List SPEntry) (c : ConnState)
    (hl : ∀ x ∈ l, evalEntry x = EvalOutcome.decline)
    (he : evalEntry e = EvalOutcome.usable c) :
    evalPath evalEntry (l ++ e :: r) = Except.ok c := by
  induction l with
  | nil => simp [evalPath, he]
  | cons x xs ih =>
    have hx := hl x (List.mem_cons_self x xs)
    rw [List.cons_append]
    simp only [evalPath, hx]
    exact ih (fun y hy => hl y (List.mem_cons_of_mem x hy))

/-- C5: The builder's connect evaluates the connect-point search path in
exactly this order: (1) entries from the override environment variable
`ARTI_RPC_CONNECT_PATH_OVERRIDE`, (2) caller-prepended entries in the
order given, (3) entries from the default search-path environment
variable `ARTI_RPC_CONNECT_PATH`, (4) built-in defaults; entries are
tried in order, and the first entry producing an authenticated
connection wins (all entries before it having declined). -/
theorem c5_search_path_order (evalEntry : SPEntry → EvalOutcome)
    (ov pre de bi l r : List SPEntry) (e : SPEntry) (c : ConnState)
    (hsplit : buildSearchPath ov pre de bi = l ++ e :: r)
    (hdecl : ∀ x ∈ l, evalEntry x = EvalOutcome.decline)
    (husable : evalEntry e = EvalOutcome.usable c) :
    buildSearchPath ov pre de bi = ov ++ pre ++ de ++ bi
    ∧ arti_rpc_conn_builder_connect evalEntry ov pre de bi = Except.ok c := by
  refine ⟨rfl, ?_⟩
  rw [arti_rpc_conn_builder_connect, hsplit]
  exact evalPath_first_usable evalEntry l e r c hdecl husable

/-- Witness for C5, mirroring the spec's search-path precedence scenario:
the override variable points at working endpoint A, a caller-prepended
entry points at working endpoint B, and the connection lands on A. -/
theorem c5_search_path_order_witness :
    (buildSearchPath [SPEntry.literalSpec "declined", SPEntry.literalSpec "A"]
        [SPEntry.literalSpec "B"] [] [SPEntry.literalSpec "C"]
      = [SPEntry.literalSpec "declined"] ++ SPEntry.literalSpec "A"
          :: [SPEntry.literalSpec "B", SPEntry.literalSpec "C"]
    ∧ (∀ x ∈ [SPEntry.literalSpec "declined"],
        (fun y => if y = SPEntry.literalSpec "A" then
            EvalOutcome.usable (initConn "connA")
          else if y = SPEntry.literalSpec "B" then
            EvalOutcome.usable (initConn "connB")
          else EvalOutcome.decline) x = EvalOutcome.decline))
    ∧ (buildSearchPath [SPEntry.literalSpec "declined", SPEntry.literalSpec "A"]
        [SPEntry.literalSpec "B"] [] [SPEntry.literalSpec "C"]
      = [SPEntry.literalSpec "declined", SPEntry.literalSpec "A"]
          ++ [SPEntry.literalSpec "B"] ++ [] ++ [SPEntry.literalSpec "C"]
    ∧ arti_rpc_conn_builder_connect
        (fun y => if y = SPEntry.literalSpec "A" then
            EvalOutcome.usable (initConn "connA")
          else if y = SPEntry.literalSpec "B" then
            EvalOutcome.usable (initConn "connB")
          else EvalOutcome.decline)
        [SPEntry.literalSpec "declined", SPEntry.literalSpec "A"]
        [SPEntry.literalSpec "B"] [] [SPEntry.literalSpec "C"]
      = Except.ok (initConn "connA")) :=
  ⟨⟨by decide, by decide⟩,
    c5_search_path_order
      (fun y => if y = SPEntry.literalSpec "A" then
          EvalOutcome.usable (initConn "connA")
        else if y = SPEntry.literalSpec "B" then
          EvalOutcome.usable (initConn "connB")
        else EvalOutcome.decline)
      [SPEntry.literalSpec "declined", SPEntry.literalSpec "A"]
      [SPEntry.literalSpec "B"] [] [SPEntry.literalSpec "C"]
      [SPEntry.literalSpec "declined"]
      [SPEntry.literalSpec "B", SPEntry.literalSpec "C"]
      (SPEntry.literalSpec "A") (initConn "connA")
      (by decide) (by decide) (by decide)⟩

/-- C7: For every fallible operation, the error out-parameter (when the
caller passes one) is set to a newly allocated error object exactly when
the returned status is non-zero; on success the error out-parameter is
NULL; on failure every other out-parameter is NULL (and the socket
out-parameter of open_stream is -1) and nothing but the error object is
returned. -/
theorem c7_out_parameter_conventions {α : Type} (errProvided : Bool)
    (e : ErrObj) (a : α) (h : e.status ≠ 0) :
    finishCall errProvided (Except.ok a)
      = ⟨ARTI_RPC_STATUS_SUCCESS, some a, none⟩
    ∧ (finishCall errProvided (Except.error e : Except ErrObj α)).status = e.status
    ∧ (finishCall errProvided (Except.error e : Except ErrObj α)).status ≠ 0
    ∧ (finishCall errProvided (Except.error e : Except ErrObj α)).out = none
    ∧ (finishCall errProvided (Except.error e : Except ErrObj α)).errorOut.isSome
        = errProvided
    ∧ (finishOpenStream errProvided (Except.error e)).socket = -1
    ∧ (finishOpenStream errProvided (Except.error e)).streamId = none
    ∧ (finishOpenStream errProvided (Except.error e)).status ≠ 0 := by
  refine ⟨rfl, rfl, h, rfl, ?_, rfl, rfl, h⟩
  cases errProvided <;> rfl

/-- Witness for C7 at a concrete error object and result value. -/
theorem c7_out_parameter_witness :
    (ErrObj.mk ARTI_RPC_STATUS_CONNECT_IO "io error" 111 none).status ≠ 0
    ∧ (finishCall true (Except.ok "resp")
        = ⟨ARTI_RPC_STATUS_SUCCESS, some "resp", none⟩
      ∧ (finishCall true (Except.error
          (ErrObj.mk ARTI_RPC_STATUS_CONNECT_IO "io error" 111 none)
          : Except ErrObj String)).status
        = (ErrObj.mk ARTI_RPC_STATUS_CONNECT_IO "io error" 111 none).status
      ∧ (finishCall true (Except.error
          (ErrObj.mk ARTI_RPC_STATUS_CONNECT_IO "io error" 111 none)
          : Except ErrObj String)).status ≠ 0
      ∧ (finishCall true (Except.error
          (ErrObj.mk ARTI_RPC_STATUS_CONNECT_IO "io error" 111 none)
          : Except ErrObj String)).out = none
      ∧ (finishCall true (Except.error
          (ErrObj.mk ARTI_RPC_STATUS_CONNECT_IO "io error" 111 none)
          : Except ErrObj String)).errorOut.isSome = true
      ∧ (finishOpenStream true (Except.error
          (ErrObj.mk ARTI_RPC_STATUS_CONNECT_IO "io error" 111 none))).socket = -1
      ∧ (finishOpenStream true (Except.error
          (ErrObj.mk ARTI_RPC_STATUS_CONNECT_IO "io error" 111 none))).streamId
        = none
      ∧ (finishOpenStream true (Except.error
          (ErrObj.mk ARTI_RPC_STATUS_CONNECT_IO "io error" 111 none))).status
        ≠ 0) :=
  ⟨by decide,
    c7_out_parameter_conventions true
      (ErrObj.mk ARTI_RPC_STATUS_CONNECT_IO "io error" 111 none) "resp"
      (by decide)⟩

/-- C9: The public integer enumerations have exactly the fixed values the
spec assigns: status codes SUCCESS=0 through BAD_CONNECT_POINT_PATH=15,
builder entry types literal-connect-point=1, expandable-path=2,
literal-path=3, and response types RESULT=1, UPDATE=2, ERROR=3. -/
theorem c9_enum_constant_values :
    ARTI_RPC_STATUS_SUCCESS = 0
    ∧ ARTI_RPC_STATUS_INVALID_INPUT = 1
    ∧ ARTI_RPC_STATUS_NOT_SUPPORTED = 2
    ∧ ARTI_RPC_STATUS_CONNECT_IO = 3
    ∧ ARTI_RPC_STATUS_BAD_AUTH = 4
    ∧ ARTI_RPC_STATUS_PEER_PROTOCOL_VIOLATION = 5
    ∧ ARTI_RPC_STATUS_SHUTDOWN = 6
    ∧ ARTI_RPC_STATUS_INTERNAL = 7
    ∧ ARTI_RPC_STATUS_REQUEST_FAILED = 8
    ∧ ARTI_RPC_STATUS_REQUEST_COMPLETED = 9
    ∧ ARTI_RPC_STATUS_PROXY_IO = 10
    ∧ ARTI_RPC_STATUS_PROXY_STREAM_FAILED = 11
    ∧ ARTI_RPC_STATUS_NOT_AUTHENTICATED = 12
    ∧ ARTI_RPC_STATUS_ALL_CONNECT_ATTEMPTS_FAILED = 13
    ∧ ARTI_RPC_STATUS_CONNECT_POINT_NOT_USABLE = 14
    ∧ ARTI_RPC_STATUS_BAD_CONNECT_POINT_PATH = 15
    ∧ ARTI_RPC_BUILDER_ENTRY_LITERAL_CONNECT_POINT = 1
    ∧ ARTI_RPC_BUILDER_ENTRY_EXPANDABLE_PATH = 2
    ∧ ARTI_RPC_BUILDER_ENTRY_LITERAL_PATH = 3
    ∧ ARTI_RPC_RESPONSE_TYPE_RESULT = 1
    ∧ ARTI_RPC_RESPONSE_TYPE_UPDATE = 2
    ∧ ARTI_RPC_RESPONSE_TYPE_ERROR = 3 := by
  decide

/-- C10: Every observation and release operation of the public API is
total on NULL input with a fixed result: the free functions treat NULL as
a no-op; `arti_rpc_err_status` on NULL returns `INVALID_INPUT`;
`arti_rpc_err_os_error_code` on NULL returns 0; `arti_rpc_err_message`,
`arti_rpc_err_response` and `arti_rpc_err_clone` return NULL on NULL
input; and `arti_rpc_status_to_str` returns a non-NULL string for every
status value, including unrecognized ones. -/
theorem c10_null_input_totality (heap : List Nat) (s : Nat) :
    arti_rpc_object_free heap none = heap
    ∧ arti_rpc_err_status none = ARTI_RPC_STATUS_INVALID_INPUT
    ∧ arti_rpc_err_os_error_code none = 0
    ∧ arti_rpc_err_message none = none
    ∧ arti_rpc_err_response none = none
    ∧ arti_rpc_err_clone none = none
    ∧ (arti_rpc_status_to_str s).isSome = true := by
  refine ⟨rfl, rfl, rfl, rfl, rfl, rfl, ?_⟩
  unfold arti_rpc_status_to_str
  simp only [apply_ite Option.isSome, Option.isSome_some, ite_self]

/-- Witness for C10 at a concrete heap and an unrecognized status. -/
theorem c10_null_input_totality_witness :
    arti_rpc_object_free [4, 8] none = [4, 8]
    ∧ arti_rpc_err_status none = ARTI_RPC_STATUS_INVALID_INPUT
    ∧ arti_rpc_err_os_error_code none = 0
    ∧ arti_rpc_err_message none = none
    ∧ arti_rpc_err_response none = none
    ∧ arti_rpc_err_clone none = none
    ∧ (arti_rpc_status_to_str 99).isSome = true :=
  c10_null_input_totality [4, 8] 99
